import Mathlib

/-!
Shallow embedding of the CurriculumTracker project/progress/analytics services
(src/services/project.go, src/services/progress.go, the progress HTTP handler,
and the analytics aggregation), together with theorems settling the claims
about identifier allocation, prerequisite validation, delete safety, the
progress state machine and the weekly time series.

The database is modelled as explicit lists of records: a curriculum's projects
as a `List Project` (row order = insertion order), a learner's progress row as
an `Option ProgressRow`, and the learner's time log as a `List TimeEntry`.
SQL aggregate queries are translated into the corresponding pure list
computations.
-/

namespace CurriculumTracker

/-! ## Data model (src/models) -/

/-- Project record, the claim-relevant columns of the `projects` table
(`models.Project`): `id`, `curriculum_id`, `identifier`, `prerequisites`
(`TEXT[]` of identifier strings), `project_type`, `position_order`. -/
structure Project where
  id : Nat
  curriculumId : Nat
  identifier : String
  prerequisites : List String
  projectType : String
  positionOrder : Int

/-- `models.CreateProjectRequest`, restricted to the claim-relevant fields. -/
structure CreateProjectRequest where
  prerequisites : List String
  projectType : String
  positionOrder : Int

/-- Project type constants from src/models/project.go. -/
def ProjectTypeRoot : String := "root"

def ProjectTypeRootTest : String := "rootTest"

def ProjectTypeBase : String := "base"

def ProjectTypeBaseTest : String := "baseTest"

def ProjectTypeLowerBranch : String := "lowerBranch"

def ProjectTypeMiddleBranch : String := "middleBranch"

def ProjectTypeUpperBranch : String := "upperBranch"

def ProjectTypeFlowerMilestone : String := "flowerMilestone"

/-- `models.UpdateProjectRequest`, restricted to the claim-relevant fields. -/
structure UpdateProjectRequest where
  prerequisites : List String
  projectType : String
  positionOrder : Int

/-- Typed rendering of the `fmt.Errorf` failures of the project service. -/
inductive ProjErr where
  | curriculumNotFound
  | projectNotFound
  | invalidType (t : String)
  | conflict (t : String)
  | unknownPrerequisite (s : String)
  | outOfOrderPrerequisite (s : String)
deriving DecidableEq

/-! ## Identifier allocation (src/services/project.go) -/

/-- The `SELECT COUNT(*) FROM projects WHERE curriculum_id = $1 AND
project_type = $2` aggregate: the number of projects of type `t` in the
curriculum whose rows are `projs`. -/
def countType (projs : List Project) (t : String) : Nat :=
  (projs.filter (fun p => p.projectType == t)).length

/-- `generateSequentialIdentifier` (project.go:43): `COUNT(*) + 1` of the
type's projects in the curriculum, rendered as `<pfx><n>`. -/
def generateSequentialIdentifier (projs : List Project) (t pfx : String) :
    Except ProjErr String :=
  .ok (pfx ++ toString (countType projs t + 1))

/-- `generateTestIdentifier` (project.go:59): the fixed code `pfx`, failing
with a conflict error when a project of type `t` already exists. -/
def generateTestIdentifier (projs : List Project) (t pfx : String) :
    Except ProjErr String :=
  if countType projs t > 0 then .error (.conflict t) else .ok pfx

/-- `generateBranchIdentifier` (project.go:80): per its comment, currently the
same simple sequential numbering as `generateSequentialIdentifier`. -/
def generateBranchIdentifier (projs : List Project) (t pfx : String) :
    Except ProjErr String :=
  .ok (pfx ++ toString (countType projs t + 1))

/-- `generateIdentifier` (project.go:20): dispatch on the project type. -/
def generateIdentifier (projs : List Project) (t : String) :
    Except ProjErr String :=
  if t = ProjectTypeRoot then generateSequentialIdentifier projs t "R"
  else if t = ProjectTypeRootTest then generateTestIdentifier projs t "RT"
  else if t = ProjectTypeBase then generateSequentialIdentifier projs t "B"
  else if t = ProjectTypeBaseTest then generateTestIdentifier projs t "BT"
  else if t = ProjectTypeLowerBranch then generateBranchIdentifier projs t "LB"
  else if t = ProjectTypeMiddleBranch then generateBranchIdentifier projs t "MB"
  else if t = ProjectTypeUpperBranch then generateBranchIdentifier projs t "UB"
  else if t = ProjectTypeFlowerMilestone then
    generateSequentialIdentifier projs t "F"
  else .error (.invalidType t)

/-! ## Prerequisite validation (src/services/project.go:98) -/

/-- `strings.TrimSpace`: strip leading and trailing whitespace characters
(modelled over the ASCII whitespace used by identifiers). -/
def isSpaceChar (c : Char) : Bool :=
  c = ' ' || c = '\t' || c = '\n' || c = '\r'

/-- `strings.TrimSpace` on a string viewed as its character list. -/
def trimSpace (s : String) : String :=
  ⟨((s.data.dropWhile isSpaceChar).reverse.dropWhile isSpaceChar).reverse⟩

/-- Insertion step of the `ORDER BY position_order` sort of the
`validatePrerequisites` row query. -/
def insertByOrder (p : Project) : List Project → List Project
  | [] => [p]
  | q :: qs =>
    if p.positionOrder ≤ q.positionOrder then p :: q :: qs
    else q :: insertByOrder p qs

/-- The curriculum's project rows sorted by `position_order`
(`ORDER BY position_order`). -/
def sortByOrder (projs : List Project) : List Project :=
  projs.foldr insertByOrder []

/-- The `projectOrders` map of `validatePrerequisites` (project.go:117): rows
are inserted in `position_order` order and a later row with the same
identifier overwrites an earlier one, so the lookup returns the
`position_order` of the last such row. -/
def projectOrder (projs : List Project) (ident : String) : Option Int :=
  ((sortByOrder projs).reverse.find? (fun p => p.identifier == ident)).map
    (fun p => p.positionOrder)

/-- The `currentOrder` local of `validatePrerequisites` (project.go:128):
`-1` unless a non-empty `currentIdentifier` resolves to a project. -/
def currentOrderOf (projs : List Project) (currentIdentifier : String) : Int :=
  if currentIdentifier = "" then -1
  else
    match projectOrder projs currentIdentifier with
    | some o => o
    | none => -1

/-- The per-entry loop of `validatePrerequisites` (project.go:136): trim each
entry, skip blanks, fail on unknown identifiers, and fail on an order
violation only when `currentOrder ≠ -1`. -/
def validateEach (projs : List Project) (currentOrder : Int) :
    List String → Except ProjErr Unit
  | [] => .ok ()
  | e :: rest =>
    if trimSpace e = "" then validateEach projs currentOrder rest
    else
      match projectOrder projs (trimSpace e) with
      | none => .error (.unknownPrerequisite (trimSpace e))
      | some o =>
        if currentOrder ≠ -1 ∧ o ≥ currentOrder then
          .error (.outOfOrderPrerequisite (trimSpace e))
        else validateEach projs currentOrder rest

/-- `validatePrerequisites` (project.go:98): empty lists pass immediately;
otherwise each entry is checked against the curriculum's identifier→order
map, with `currentIdentifier = ""` marking creation. -/
def validatePrerequisites (projs : List Project) (prerequisites : List String)
    (currentIdentifier : String) : Except ProjErr Unit :=
  if prerequisites.length = 0 then .ok ()
  else validateEach projs (currentOrderOf projs currentIdentifier) prerequisites

/-! ## Project creation and deletion (src/services/project.go) -/

/-- `isValidProjectType` (project.go:386). -/
def isValidProjectType (t : String) : Bool :=
  t == ProjectTypeRoot || t == ProjectTypeRootTest || t == ProjectTypeBase ||
  t == ProjectTypeBaseTest || t == ProjectTypeLowerBranch ||
  t == ProjectTypeMiddleBranch || t == ProjectTypeUpperBranch ||
  t == ProjectTypeFlowerMilestone

/-- `CreateProject` (project.go:157) for one curriculum: check the curriculum
exists, allocate an identifier, validate prerequisites with an empty
`currentIdentifier`, check the type, then `INSERT` the row. The state is the
curriculum's project list; `nid` is the `id` the insert allocates. On success
the created row and the new project list are returned; on error no row is
inserted. -/
def createProject (curriculumExists : Bool) (cid nid : Nat)
    (projs : List Project) (req : CreateProjectRequest) :
    Except ProjErr (Project × List Project) :=
  if curriculumExists = false then .error .curriculumNotFound
  else
    match generateIdentifier projs req.projectType with
    | .error e => .error e
    | .ok ident =>
      match validatePrerequisites projs req.prerequisites "" with
      | .error e => .error e
      | .ok _ =>
        if isValidProjectType req.projectType = false then
          .error (.invalidType req.projectType)
        else
          let p : Project :=
            { id := nid, curriculumId := cid, identifier := ident,
              prerequisites := req.prerequisites,
              projectType := req.projectType,
              positionOrder := req.positionOrder }
          .ok (p, projs ++ [p])

/-- `UpdateProject` (project.go:295) for one curriculum: look the project up
by id (`GetProjectByID`), validate the requested prerequisites with the
project's own identifier as `currentIdentifier`, check the requested type
with `isValidProjectType`, then `UPDATE` the row in place — the identifier
is never regenerated and `project_type` is overwritten with no singleton
check. -/
def updateProject (projs : List Project) (projectID : Nat)
    (req : UpdateProjectRequest) : Except ProjErr (Project × List Project) :=
  match projs.find? (fun p => p.id == projectID) with
  | none => .error .projectNotFound
  | some current =>
    match validatePrerequisites projs req.prerequisites current.identifier with
    | .error e => .error e
    | .ok _ =>
      if isValidProjectType req.projectType = false then
        .error (.invalidType req.projectType)
      else
        let p' : Project :=
          { current with
            prerequisites := req.prerequisites
            projectType := req.projectType
            positionOrder := req.positionOrder }
        .ok (p', projs.map (fun p => if p.id == projectID then p' else p))

/-- Curriculum states reachable from an empty curriculum by successful
`CreateProject` calls alone. `UpdateProject` is deliberately not a step
here: it can overwrite `project_type` with `rootTest`/`baseTest` without a
singleton check, so the at-most-one-test-project invariant holds only for
this creation-only reachability (see the C4 counterexample). -/
inductive CreateReachable : List Project → Prop
  | nil : CreateReachable []
  | step {s s' : List Project} {cid nid : Nat} {req : CreateProjectRequest}
      {p : Project} : CreateReachable s →
      createProject true cid nid s req = .ok (p, s') → CreateReachable s'

/-- Typed rendering of the `DeleteProject` failures. -/
inductive DelErr where
  | hasDependents (n : Nat)
  | notFound
deriving DecidableEq

/-- `DeleteProject` (project.go:344) over all of the learner's project rows
(the dependents query joins `curricula` on the learner, not on the project's
curriculum). The dependents count implements `$2 = ANY(p.prerequisites)`
where `$2` is the numeric `projectID` sent as its decimal text against the
`TEXT[]` prerequisites column; the delete removes the row with that `id` and
reports `notFound` when no row was affected. -/
def deleteProject (userProjects : List Project) (projectID : Nat) :
    Except DelErr (List Project) :=
  let dependentCount :=
    (userProjects.filter
      (fun p => p.prerequisites.contains (toString projectID))).length
  if dependentCount > 0 then .error (.hasDependents dependentCount)
  else
    let remaining := userProjects.filter (fun p => p.id != projectID)
    if remaining.length = userProjects.length then .error .notFound
    else .ok remaining

/-! ## Progress state machine (src/services/progress.go, progress handler) -/

/-- Status constants from the models package. -/
def StatusNotStarted : String := "not_started"

def StatusInProgress : String := "in_progress"

def StatusCompleted : String := "completed"

def StatusOnHold : String := "on_hold"

def StatusAbandoned : String := "abandoned"

/-- The claim-relevant columns of a `progress` row. Timestamps are instants
(`Nat`); `none` models SQL `NULL`. -/
structure ProgressRow where
  status : String
  completionPercentage : Int
  startedAt : Option Nat
  completedAt : Option Nat
deriving DecidableEq

/-- `models.UpdateProgressRequest`. -/
structure UpdateProgressRequest where
  status : String
  completionPercentage : Int
deriving DecidableEq

/-- The `startedAt` parameter computed by `UpdateProgress` (progress.go:32):
`now` when transitioning from `not_started` (or from no row, whose status
reads as `""`) to any other status, otherwise the preserved current value. -/
def startedAtParam (currentStatus : String) (currentStartedAt : Option Nat)
    (reqStatus : String) (now : Nat) : Option Nat :=
  if (currentStatus = "" ∨ currentStatus = StatusNotStarted) ∧
      reqStatus ≠ StatusNotStarted then some now
  else if currentStartedAt.isSome then currentStartedAt
  else none

/-- The completion-percentage normalization of `UpdateProgress`
(progress.go:44): `completed` forces `100` first, then `not_started` forces
`0`, then `abandoned` at exactly `100` is lowered to `99`. -/
def normalizePercentage (reqStatus : String) (pct : Int) : Int :=
  let p1 := if reqStatus = StatusCompleted then 100 else pct
  if reqStatus = StatusNotStarted then 0
  else if reqStatus = StatusAbandoned ∧ p1 = 100 then 99
  else p1

/-- The `currentStatus` local of `UpdateProgress`: `""` when no row exists
(`sql.ErrNoRows` leaves the scan target empty). -/
def currentStatusOf : Option ProgressRow → String
  | none => ""
  | some r => r.status

/-- The `currentStartedAt` local of `UpdateProgress`: `NULL` when no row
exists. -/
def currentStartedAtOf : Option ProgressRow → Option Nat
  | none => none
  | some r => r.startedAt

/-- `UpdateProgress` (progress.go:18): read the current row, compute the
started/completed parameters and the normalized percentage in Go, then run
the `INSERT ... ON CONFLICT DO UPDATE` upsert whose `CASE` expressions keep a
non-null `started_at` and null `completed_at` unless the new status is
`completed`. `current = none` models the absent-row case (`sql.ErrNoRows`,
`currentStatus = ""`). -/
def updateProgress (current : Option ProgressRow)
    (req : UpdateProgressRequest) (now : Nat) : ProgressRow :=
  let currentStatus := match current with | none => "" | some r => r.status
  let currentStartedAt :=
    match current with | none => none | some r => r.startedAt
  let sParam := startedAtParam currentStatus currentStartedAt req.status now
  let cParam : Option Nat :=
    if req.status = StatusCompleted then some now else none
  let pct := normalizePercentage req.status req.completionPercentage
  match current with
  | none =>
    { status := req.status, completionPercentage := pct,
      startedAt := sParam, completedAt := cParam }
  | some r =>
    { status := req.status
      completionPercentage := pct
      startedAt :=
        if r.startedAt = none ∧ sParam ≠ none then sParam else r.startedAt
      completedAt := if req.status = StatusCompleted then cParam else none }

/-- A sequence of `UpdateProgress` calls against one (learner, project) row,
each with its request and wall-clock instant. -/
def applyUpdates (r : ProgressRow)
    (us : List (UpdateProgressRequest × Nat)) : ProgressRow :=
  us.foldl (fun cur u => updateProgress (some cur) u.1 u.2) r

/-- Handler-level failure (`utils.WriteError` with a 4xx status). -/
inductive HandlerErr where
  | badRequest (msg : String)
deriving DecidableEq

/-- The handler's `validStatuses` set. -/
def validStatuses : List String :=
  [StatusNotStarted, StatusInProgress, StatusCompleted, StatusOnHold,
    StatusAbandoned]

/-- `ProgressHandler.UpdateProgress`: the request-validation gate run before
the service is invoked — empty status, unknown status, then the
completion-percentage range check; only a request passing all three reaches
`ProgressService.UpdateProgress` (and hence the database). -/
def handlerUpdateProgress (current : Option ProgressRow)
    (req : UpdateProgressRequest) (now : Nat) :
    Except HandlerErr ProgressRow :=
  if req.status = "" then .error (.badRequest "Status is required")
  else if validStatuses.contains req.status = false then
    .error (.badRequest "Invalid status")
  else if req.completionPercentage < 0 ∨ req.completionPercentage > 100 then
    .error (.badRequest "Completion percentage must be between 0 and 100")
  else .ok (updateProgress current req now)

/-! ## Weekly time series of `GetAnalytics` -/

/-- A `time_entries` row: when it was logged and how many minutes. Instants
are minutes on an integer timeline whose origin is a week boundary. -/
structure TimeEntry where
  loggedAt : Int
  minutes : Int
deriving DecidableEq

/-- Minutes per week. -/
def weekLen : Int := 10080

/-- `DATE_TRUNC('week', t)`: the start of the calendar week containing `t`. -/
def truncWeek (t : Int) : Int := t - t % weekLen

/-- The `logged_at >= NOW() - INTERVAL '8 weeks'` window filter. -/
def inWindow (now : Int) (e : TimeEntry) : Bool :=
  now - 8 * weekLen ≤ e.loggedAt

/-- The calendar week of an entry. -/
def weekOf (e : TimeEntry) : Int := truncWeek e.loggedAt

/-- Sorted-insert without duplicates: builds the `GROUP BY week ORDER BY
week` key list. -/
def insertWeek (w : Int) : List Int → List Int
  | [] => [w]
  | x :: xs =>
    if w < x then w :: x :: xs
    else if w = x then x :: xs
    else x :: insertWeek w xs

/-- The distinct calendar weeks of the learner's in-window entries, in
ascending order (`GROUP BY week ORDER BY week`). -/
def weekGroups (now : Int) (es : List TimeEntry) : List Int :=
  (((es.filter (inWindow now)).map weekOf).foldl
    (fun acc w => insertWeek w acc) [])

/-- `SUM(minutes)` of the group for week `w`: the in-window entries whose
calendar week is `w`. -/
def groupSum (now : Int) (es : List TimeEntry) (w : Int) : Int :=
  ((es.filter (fun e => inWindow now e && weekOf e == w)).map
    (fun e => e.minutes)).sum

/-- `int(time.Since(week).Hours() / 24 / 7)`: whole weeks elapsed since the
week's start, truncated toward zero as Go's float→int conversion does. -/
def weeksAgo (now w : Int) : Int := (now - w).tdiv weekLen

/-- The body of the `weeklyTimeSpent` loop of `GetAnalytics`: assign the
week's sum to bucket `7 - weeksAgo` when `0 ≤ weeksAgo < 8`, else leave the
buckets alone. -/
def bucketStep (now : Int) (es : List TimeEntry) (arr : List Int)
    (w : Int) : List Int :=
  if 0 ≤ weeksAgo now w ∧ weeksAgo now w < 8 then
    arr.set (7 - weeksAgo now w).toNat (groupSum now es w)
  else arr

/-- The `weeklyTimeSpent` loop of `GetAnalytics`: start from eight zero
buckets (`make([]int, 8)`) and run `bucketStep` over the week groups in
ascending order. -/
def weeklyTimeSpent (now : Int) (es : List TimeEntry) : List Int :=
  (weekGroups now es).foldl (bucketStep now es) (List.replicate 8 0)

/-- The minutes logged in calendar week `w`, the quantity the spec's weekly
series is stated against: the sum over all entries of that week. -/
def weekMinutes (es : List TimeEntry) (w : Int) : Int :=
  ((es.filter (fun e => weekOf e == w)).map (fun e => e.minutes)).sum

/-! ## Helper lemmas -/

theorem countType_append (projs : List Project) (p : Project) (t : String) :
    countType (projs ++ [p]) t =
      countType projs t + (if p.projectType = t then 1 else 0) := by
  unfold countType
  rw [List.filter_append, List.length_append]
  by_cases h : p.projectType = t <;> simp [h]

theorem generateIdentifier_rootTest_ok {projs : List Project} {i : String}
    (h : generateIdentifier projs ProjectTypeRootTest = .ok i) :
    countType projs ProjectTypeRootTest = 0 ∧ i = "RT" := by
  have h' : generateTestIdentifier projs ProjectTypeRootTest "RT" = .ok i := h
  unfold generateTestIdentifier at h'
  split at h'
  · cases h'
  · exact ⟨by omega, by cases h'; rfl⟩

theorem generateIdentifier_baseTest_ok {projs : List Project} {i : String}
    (h : generateIdentifier projs ProjectTypeBaseTest = .ok i) :
    countType projs ProjectTypeBaseTest = 0 ∧ i = "BT" := by
  have h' : generateTestIdentifier projs ProjectTypeBaseTest "BT" = .ok i := h
  unfold generateTestIdentifier at h'
  split at h'
  · cases h'
  · exact ⟨by omega, by cases h'; rfl⟩

theorem createProject_ok {ex : Bool} {cid nid : Nat} {s s' : List Project}
    {req : CreateProjectRequest} {p : Project}
    (h : createProject ex cid nid s req = .ok (p, s')) :
    s' = s ++ [p] ∧ p.projectType = req.projectType ∧
      p.prerequisites = req.prerequisites ∧
      p.positionOrder = req.positionOrder ∧
      generateIdentifier s req.projectType = .ok p.identifier := by
  unfold createProject at h
  split at h
  · cases h
  · split at h
    · cases h
    · rename_i ident hg
      split at h
      · cases h
      · split at h
        · cases h
        · cases h
          exact ⟨rfl, rfl, rfl, rfl, hg⟩

theorem reachable_test_counts {s : List Project} (h : CreateReachable s) :
    countType s ProjectTypeRootTest ≤ 1 ∧
      countType s ProjectTypeBaseTest ≤ 1 := by
  induction h with
  | nil => exact ⟨by simp [countType], by simp [countType]⟩
  | @step s0 s1 cid nid req p _ hok ih =>
    obtain ⟨hs', hpt, -, -, hgen⟩ := createProject_ok hok
    subst hs'
    rw [← hpt] at hgen
    constructor
    · rw [countType_append]
      by_cases hb : p.projectType = ProjectTypeRootTest
      · rw [hb] at hgen
        obtain ⟨h0, -⟩ := generateIdentifier_rootTest_ok hgen
        simp [hb, h0]
      · rw [if_neg hb, Nat.add_zero]
        exact ih.1
    · rw [countType_append]
      by_cases hb : p.projectType = ProjectTypeBaseTest
      · rw [hb] at hgen
        obtain ⟨h0, -⟩ := generateIdentifier_baseTest_ok hgen
        simp [hb, h0]
      · rw [if_neg hb, Nat.add_zero]
        exact ih.2

/-! ## Claim theorems: identifier allocation and dependency validation -/

/-- C1: for every curriculum state, allocating an identifier for a project of
a sequential type (root, base, lowerBranch, middleBranch, upperBranch,
flowerMilestone) yields the type's fixed prefix (R, B, LB, MB, UB, F)
followed by one plus the count of projects of that type already in the
curriculum; in particular, creating two root projects in a fresh curriculum
yields identifiers R1 then R2 in creation order. -/
theorem c1_sequential_identifier_allocation :
    (∀ projs : List Project,
      generateIdentifier projs ProjectTypeRoot =
        .ok ("R" ++ toString (countType projs ProjectTypeRoot + 1)) ∧
      generateIdentifier projs ProjectTypeBase =
        .ok ("B" ++ toString (countType projs ProjectTypeBase + 1)) ∧
      generateIdentifier projs ProjectTypeLowerBranch =
        .ok ("LB" ++ toString (countType projs ProjectTypeLowerBranch + 1)) ∧
      generateIdentifier projs ProjectTypeMiddleBranch =
        .ok ("MB" ++ toString (countType projs ProjectTypeMiddleBranch + 1)) ∧
      generateIdentifier projs ProjectTypeUpperBranch =
        .ok ("UB" ++ toString (countType projs ProjectTypeUpperBranch + 1)) ∧
      generateIdentifier projs ProjectTypeFlowerMilestone =
        .ok ("F" ++
          toString (countType projs ProjectTypeFlowerMilestone + 1))) ∧
    createProject true 1 1 [] ⟨[], "root", 1⟩ =
      .ok (⟨1, 1, "R1", [], "root", 1⟩, [⟨1, 1, "R1", [], "root", 1⟩]) ∧
    createProject true 1 2 [⟨1, 1, "R1", [], "root", 1⟩] ⟨[], "root", 2⟩ =
      .ok (⟨2, 1, "R2", [], "root", 2⟩,
        [⟨1, 1, "R1", [], "root", 1⟩, ⟨2, 1, "R2", [], "root", 2⟩]) :=
  ⟨fun _ => ⟨rfl, rfl, rfl, rfl, rfl, rfl⟩, rfl, rfl⟩

/-- C2: the claim says creation must reject a prerequisite whose
`positionOrder` is not strictly below the supplied `positionOrder`, but
`CreateProject` calls `validatePrerequisites` with an empty
`currentIdentifier`, so `currentOrder` stays `-1` and the order check is
skipped for new projects: with R1 (order 1) and R2 (order 2) present,
creating a root project with `positionOrder = 1` and prerequisite `R2`
(order 2, not below 1) succeeds and inserts the row. -/
theorem c2_creation_order_check_skipped :
    createProject true 1 3
        [⟨1, 1, "R1", [], "root", 1⟩, ⟨2, 1, "R2", [], "root", 2⟩]
        ⟨["R2"], "root", 1⟩ =
      .ok (⟨3, 1, "R3", ["R2"], "root", 1⟩,
        [⟨1, 1, "R1", [], "root", 1⟩, ⟨2, 1, "R2", [], "root", 2⟩,
          ⟨3, 1, "R3", ["R2"], "root", 1⟩]) ∧
    projectOrder [⟨1, 1, "R1", [], "root", 1⟩, ⟨2, 1, "R2", [], "root", 2⟩]
        "R2" = some 2 ∧
    ¬ ((2 : Int) < 1) :=
  ⟨rfl, rfl, by decide⟩

/-- C3: the claim says deleting a project whose identifier occurs in another
project's `prerequisites` must fail with a dependents error, but the
dependents query compares the numeric project id (as text) with the
identifier strings stored in `prerequisites`: with P (id 1, identifier R1)
and Q (id 2, prerequisites [R1]), Q depends on P by identifier, yet
`DeleteProject` counts zero dependents and deletes P. -/
theorem c3_delete_ignores_identifier_dependents :
    deleteProject
        [⟨1, 1, "R1", [], "root", 1⟩, ⟨2, 1, "R2", ["R1"], "root", 2⟩] 1 =
      .ok [⟨2, 1, "R2", ["R1"], "root", 2⟩] ∧
    (⟨2, 1, "R2", ["R1"], "root", 2⟩ : Project).prerequisites.contains
      (⟨1, 1, "R1", [], "root", 1⟩ : Project).identifier = true :=
  ⟨rfl, rfl⟩

/-- C4 counterexample: the claim's conclusion "every curriculum holds at
most one rootTest project" fails once `UpdateProject` is considered: it
overwrites `project_type` guarded only by `isValidProjectType` (which
accepts rootTest/baseTest) with no singleton check and no identifier
regeneration, so creating RT, creating R1, then updating R1's type to
rootTest leaves the curriculum with two rootTest projects. -/
theorem c4_counterexample :
    createProject true 1 1 [] ⟨[], "rootTest", 1⟩ =
      .ok (⟨1, 1, "RT", [], "rootTest", 1⟩, [⟨1, 1, "RT", [], "rootTest", 1⟩]) ∧
    createProject true 1 2 [⟨1, 1, "RT", [], "rootTest", 1⟩]
        ⟨[], "root", 2⟩ =
      .ok (⟨2, 1, "R1", [], "root", 2⟩,
        [⟨1, 1, "RT", [], "rootTest", 1⟩, ⟨2, 1, "R1", [], "root", 2⟩]) ∧
    updateProject
        [⟨1, 1, "RT", [], "rootTest", 1⟩, ⟨2, 1, "R1", [], "root", 2⟩] 2
        ⟨[], "rootTest", 2⟩ =
      .ok (⟨2, 1, "R1", [], "rootTest", 2⟩,
        [⟨1, 1, "RT", [], "rootTest", 1⟩, ⟨2, 1, "R1", [], "rootTest", 2⟩]) ∧
    countType
      [⟨1, 1, "RT", [], "rootTest", 1⟩, ⟨2, 1, "R1", [], "rootTest", 2⟩]
      ProjectTypeRootTest = 2 :=
  ⟨rfl, rfl, rfl, rfl⟩

/-- C4 amended: allocating a singleton test identifier yields the fixed code
RT/BT when the curriculum has no project of that type, and `CreateProject`
fails with a conflict error (inserting nothing) when one exists;
consequently every curriculum state reachable by project creation alone
holds at most one rootTest and at most one baseTest project. (The
unrestricted invariant is false: `UpdateProject` can retype a project to
rootTest/baseTest with no singleton check — see `c4_counterexample`.) -/
theorem c4_singleton_test_types :
    (∀ projs : List Project, countType projs ProjectTypeRootTest = 0 →
      generateIdentifier projs ProjectTypeRootTest = .ok "RT") ∧
    (∀ projs : List Project, countType projs ProjectTypeBaseTest = 0 →
      generateIdentifier projs ProjectTypeBaseTest = .ok "BT") ∧
    (∀ (projs : List Project) (cid nid : Nat) (req : CreateProjectRequest),
      req.projectType = ProjectTypeRootTest →
      0 < countType projs ProjectTypeRootTest →
      createProject true cid nid projs req =
        .error (.conflict ProjectTypeRootTest)) ∧
    (∀ (projs : List Project) (cid nid : Nat) (req : CreateProjectRequest),
      req.projectType = ProjectTypeBaseTest →
      0 < countType projs ProjectTypeBaseTest →
      createProject true cid nid projs req =
        .error (.conflict ProjectTypeBaseTest)) ∧
    (∀ s : List Project, CreateReachable s →
      countType s ProjectTypeRootTest ≤ 1 ∧
        countType s ProjectTypeBaseTest ≤ 1) := by
  refine ⟨?_, ?_, ?_, ?_, fun s h => reachable_test_counts h⟩
  · intro projs h0
    show generateTestIdentifier projs ProjectTypeRootTest "RT" = .ok "RT"
    unfold generateTestIdentifier
    rw [h0]
    rfl
  · intro projs h0
    show generateTestIdentifier projs ProjectTypeBaseTest "BT" = .ok "BT"
    unfold generateTestIdentifier
    rw [h0]
    rfl
  · intro projs cid nid req hreq hc
    unfold createProject
    rw [hreq]
    have hg : generateIdentifier projs ProjectTypeRootTest =
        .error (.conflict ProjectTypeRootTest) := by
      show generateTestIdentifier projs ProjectTypeRootTest "RT" =
        .error (.conflict ProjectTypeRootTest)
      unfold generateTestIdentifier
      rw [if_pos hc]
    rw [hg]
    rfl
  · intro projs cid nid req hreq hc
    unfold createProject
    rw [hreq]
    have hg : generateIdentifier projs ProjectTypeBaseTest =
        .error (.conflict ProjectTypeBaseTest) := by
      show generateTestIdentifier projs ProjectTypeBaseTest "BT" =
        .error (.conflict ProjectTypeBaseTest)
      unfold generateTestIdentifier
      rw [if_pos hc]
    rw [hg]
    rfl

/-- Witness for C4: the rootTest allocation on a fresh curriculum, the
conflict on a second rootTest, and the invariant on the empty state, all at
concrete inputs. -/
theorem c4_singleton_test_types_witness :
    generateIdentifier [] ProjectTypeRootTest = .ok "RT" ∧
    createProject true 1 2 [⟨1, 1, "RT", [], "rootTest", 1⟩]
        ⟨[], "rootTest", 1⟩ = .error (.conflict ProjectTypeRootTest) ∧
    countType [] ProjectTypeRootTest ≤ 1 ∧
    countType [] ProjectTypeBaseTest ≤ 1 :=
  ⟨c4_singleton_test_types.1 [] rfl,
    c4_singleton_test_types.2.2.1 [⟨1, 1, "RT", [], "rootTest", 1⟩] 1 2
      ⟨[], "rootTest", 1⟩ rfl (by decide),
    (c4_singleton_test_types.2.2.2.2 [] CreateReachable.nil).1,
    (c4_singleton_test_types.2.2.2.2 [] CreateReachable.nil).2⟩

/-! ## Helper lemmas for the progress state machine -/

theorem updateProgress_status (current : Option ProgressRow)
    (req : UpdateProgressRequest) (now : Nat) :
    (updateProgress current req now).status = req.status := by
  cases current <;> rfl

theorem updateProgress_pct (current : Option ProgressRow)
    (req : UpdateProgressRequest) (now : Nat) :
    (updateProgress current req now).completionPercentage =
      normalizePercentage req.status req.completionPercentage := by
  cases current <;> rfl

theorem updateProgress_completedAt (current : Option ProgressRow)
    (req : UpdateProgressRequest) (now : Nat) :
    (updateProgress current req now).completedAt =
      if req.status = StatusCompleted then some now else none := by
  cases current with
  | none => rfl
  | some r =>
    show (if req.status = StatusCompleted then
        (if req.status = StatusCompleted then some now else none)
      else none) = _
    split <;> simp_all

theorem updateProgress_startedAt_preserved {r : ProgressRow} {t : Nat}
    (req : UpdateProgressRequest) (now : Nat) (h : r.startedAt = some t) :
    (updateProgress (some r) req now).startedAt = some t := by
  show (if r.startedAt = none ∧ _ ≠ none then _ else r.startedAt) = some t
  rw [if_neg, h]
  rw [h]
  simp

theorem mem_validStatuses_ne_empty {s : String}
    (h : validStatuses.contains s = true) : s ≠ "" := by
  intro he
  subst he
  revert h
  decide

/-! ## Claim theorems: progress state machine -/

/-- C5: every record produced by `UpdateProgress` has completion percentage 0
when its status is not_started (whatever percentage the caller supplied) and
completion percentage 100 with a set completedAt when its status is
completed. -/
theorem c5_status_percentage_invariant :
    ∀ (current : Option ProgressRow) (req : UpdateProgressRequest)
      (now : Nat),
      ((updateProgress current req now).status = StatusNotStarted →
        (updateProgress current req now).completionPercentage = 0) ∧
      ((updateProgress current req now).status = StatusCompleted →
        (updateProgress current req now).completionPercentage = 100 ∧
          (updateProgress current req now).completedAt = some now) := by
  intro current req now
  constructor
  · intro h
    rw [updateProgress_status] at h
    rw [updateProgress_pct, h]
    rfl
  · intro h
    rw [updateProgress_status] at h
    refine ⟨?_, ?_⟩
    · rw [updateProgress_pct, h]
      rfl
    · rw [updateProgress_completedAt, if_pos h]

/-- Witness for C5: a completed update forces percentage 100 and a set
completedAt; a not_started update forces percentage 0. -/
theorem c5_status_percentage_invariant_witness :
    (updateProgress none ⟨"completed", 37⟩ 5).completionPercentage = 100 ∧
    (updateProgress none ⟨"completed", 37⟩ 5).completedAt = some 5 ∧
    (updateProgress none ⟨"not_started", 37⟩ 5).completionPercentage = 0 :=
  ⟨((c5_status_percentage_invariant none ⟨"completed", 37⟩ 5).2 rfl).1,
    ((c5_status_percentage_invariant none ⟨"completed", 37⟩ 5).2 rfl).2,
    (c5_status_percentage_invariant none ⟨"not_started", 37⟩ 5).1 rfl⟩

/-- C6: the returned startedAt is the current time exactly when the old
status is not_started (or the row is absent, whose status reads `""`), the
new status is anything else, and startedAt is not already set; in every
other case (including a not_started → not_started update of a row with
startedAt unset) the prior startedAt comes back unchanged — stated as one
unconditional equation over all inputs — and once set, startedAt survives
any sequence of further updates verbatim. -/
theorem c6_startedAt_set_once :
    (∀ (current : Option ProgressRow) (req : UpdateProgressRequest)
      (now : Nat),
      (updateProgress current req now).startedAt =
        if (currentStatusOf current = "" ∨
            currentStatusOf current = StatusNotStarted) ∧
            req.status ≠ StatusNotStarted ∧
            currentStartedAtOf current = none
        then some now else currentStartedAtOf current) ∧
    (∀ (r : ProgressRow) (us : List (UpdateProgressRequest × Nat)) (t : Nat),
      r.startedAt = some t → (applyUpdates r us).startedAt = some t) := by
  constructor
  · intro current req now
    cases current with
    | none =>
      by_cases hreq : req.status = StatusNotStarted <;>
        simp [updateProgress, startedAtParam, currentStatusOf,
          currentStartedAtOf, hreq]
    | some r =>
      by_cases h1 : r.status = "" ∨ r.status = StatusNotStarted <;>
        by_cases h2 : req.status = StatusNotStarted <;>
        by_cases h3 : r.startedAt = none <;>
        simp [updateProgress, startedAtParam, currentStatusOf,
          currentStartedAtOf, Option.isSome_iff_ne_none, h1, h2, h3]
  · intro r us
    induction us generalizing r with
    | nil => intro t h; exact h
    | cons u rest ih =>
      intro t h
      exact ih (updateProgress (some r) u.1 u.2) t
        (updateProgress_startedAt_preserved u.1 u.2 h)

/-- Witness for C6: a first transition to in_progress stamps startedAt, a
not_started → not_started update of a row with startedAt unset leaves it
unset, and a later sequence of updates leaves a set startedAt unchanged. -/
theorem c6_startedAt_set_once_witness :
    (updateProgress none ⟨"in_progress", 5⟩ 3).startedAt = some 3 ∧
    (updateProgress (some ⟨"not_started", 0, none, none⟩)
      ⟨"not_started", 0⟩ 9).startedAt = none ∧
    (applyUpdates ⟨"in_progress", 5, some 3, none⟩
      [(⟨"on_hold", 5⟩, 9), (⟨"completed", 0⟩, 12),
        (⟨"not_started", 0⟩, 20)]).startedAt = some 3 :=
  ⟨(c6_startedAt_set_once.1 none ⟨"in_progress", 5⟩ 3).trans (by decide),
    (c6_startedAt_set_once.1 (some ⟨"not_started", 0, none, none⟩)
      ⟨"not_started", 0⟩ 9).trans (by decide),
    c6_startedAt_set_once.2 ⟨"in_progress", 5, some 3, none⟩
      [(⟨"on_hold", 5⟩, 9), (⟨"completed", 0⟩, 12), (⟨"not_started", 0⟩, 20)]
      3 rfl⟩

/-- C8: the progress handler rejects a completion percentage outside [0,100]
with a validation error before the service (and hence any state change) is
reached, and passes every in-range request with a valid status through to
`UpdateProgress`. -/
theorem c8_percentage_range_validation :
    ∀ (current : Option ProgressRow) (req : UpdateProgressRequest)
      (now : Nat),
      ((req.completionPercentage < 0 ∨ 100 < req.completionPercentage) →
        ∀ r, handlerUpdateProgress current req now ≠ .ok r) ∧
      ((req.completionPercentage < 0 ∨ 100 < req.completionPercentage) →
        validStatuses.contains req.status = true →
        handlerUpdateProgress current req now =
          .error
            (.badRequest "Completion percentage must be between 0 and 100")) ∧
      (0 ≤ req.completionPercentage → req.completionPercentage ≤ 100 →
        validStatuses.contains req.status = true →
        handlerUpdateProgress current req now =
          .ok (updateProgress current req now)) := by
  intro current req now
  have hrange : ∀ h : req.completionPercentage < 0 ∨
      100 < req.completionPercentage,
      validStatuses.contains req.status = true →
      handlerUpdateProgress current req now =
        .error
          (.badRequest "Completion percentage must be between 0 and 100") := by
    intro h hc
    rw [handlerUpdateProgress, if_neg (mem_validStatuses_ne_empty hc),
      if_neg (by rw [hc]; simp), if_pos]
    rcases h with h | h
    · exact Or.inl h
    · exact Or.inr h
  refine ⟨?_, hrange, ?_⟩
  · intro h r
    by_cases hc : validStatuses.contains req.status = true
    · rw [hrange h hc]
      simp
    · have hc' : validStatuses.contains req.status = false :=
        Bool.eq_false_iff.mpr hc
      by_cases he : req.status = ""
      · rw [handlerUpdateProgress, if_pos he]
        simp
      · rw [handlerUpdateProgress, if_neg he, if_pos hc']
        simp
  · intro h0 h100 hc
    rw [handlerUpdateProgress, if_neg (mem_validStatuses_ne_empty hc),
      if_neg (by rw [hc]; simp), if_neg]
    rintro (h | h) <;> omega

/-- Witness for C8: a 101% request is rejected with the range error, a 100%
request goes through to the service. -/
theorem c8_percentage_range_validation_witness :
    handlerUpdateProgress none ⟨"in_progress", 101⟩ 3 =
      .error (.badRequest "Completion percentage must be between 0 and 100") ∧
    handlerUpdateProgress none ⟨"in_progress", 100⟩ 3 =
      .ok (updateProgress none ⟨"in_progress", 100⟩ 3) :=
  ⟨(c8_percentage_range_validation none ⟨"in_progress", 101⟩ 3).2.1
      (Or.inr (by decide)) (by decide),
    (c8_percentage_range_validation none ⟨"in_progress", 100⟩ 3).2.2
      (by decide) (by decide) (by decide)⟩

/-- C10: an abandoned update whose supplied percentage is exactly 100 is
silently persisted as 99, while an abandoned update with any other
percentage keeps the supplied value. -/
theorem c10_abandoned_caps_percentage :
    ∀ (current : Option ProgressRow) (now : Nat) (pct : Int),
      (updateProgress current ⟨StatusAbandoned, 100⟩
        now).completionPercentage = 99 ∧
      (pct ≠ 100 →
        (updateProgress current ⟨StatusAbandoned, pct⟩
          now).completionPercentage = pct) := by
  intro current now pct
  constructor
  · rw [updateProgress_pct]
    rfl
  · intro h
    rw [updateProgress_pct, normalizePercentage]
    show (if StatusAbandoned = StatusNotStarted then 0
      else if StatusAbandoned = StatusAbandoned ∧
          (if StatusAbandoned = StatusCompleted then 100 else pct) = 100
        then 99
      else if StatusAbandoned = StatusCompleted then 100 else pct) = pct
    rw [if_neg (by decide), if_neg, if_neg (by decide)]
    rintro ⟨-, hp⟩
    rw [if_neg (by decide)] at hp
    exact h hp

/-- Witness for C10: an abandoned update at 55% keeps 55, one at 100% is
lowered to 99. -/
theorem c10_abandoned_caps_percentage_witness :
    (updateProgress none ⟨StatusAbandoned, 100⟩ 7).completionPercentage =
      99 ∧
    (updateProgress none ⟨StatusAbandoned, 55⟩ 7).completionPercentage =
      55 :=
  ⟨(c10_abandoned_caps_percentage none 7 55).1,
    (c10_abandoned_caps_percentage none 7 55).2 (by decide)⟩

/-! ## Helper lemmas for prerequisite validation -/

theorem mem_insertByOrder {q p : Project} {l : List Project} :
    q ∈ insertByOrder p l ↔ q = p ∨ q ∈ l := by
  induction l with
  | nil => simp [insertByOrder]
  | cons x xs ih =>
    rw [insertByOrder]
    split
    · simp
    · simp only [List.mem_cons, ih]
      tauto

theorem mem_sortByOrder {q : Project} {l : List Project} :
    q ∈ sortByOrder l ↔ q ∈ l := by
  induction l with
  | nil => simp [sortByOrder]
  | cons x xs ih =>
    show q ∈ insertByOrder x (sortByOrder xs) ↔ _
    rw [mem_insertByOrder, ih]
    simp

theorem projectOrder_eq_none_iff {projs : List Project} {x : String} :
    projectOrder projs x = none ↔ ∀ p ∈ projs, p.identifier ≠ x := by
  rw [projectOrder, Option.map_eq_none', List.find?_eq_none]
  constructor
  · intro h p hp
    have := h p (List.mem_reverse.mpr (mem_sortByOrder.mpr hp))
    simpa using this
  · intro h p hp
    have hp' : p ∈ projs := mem_sortByOrder.mp (List.mem_reverse.mp hp)
    simpa using h p hp'

theorem projectOrder_ne_none_iff {projs : List Project} {x : String} :
    projectOrder projs x ≠ none ↔ ∃ p ∈ projs, p.identifier = x := by
  constructor
  · intro h
    by_contra hc
    push_neg at hc
    exact h (projectOrder_eq_none_iff.mpr hc)
  · rintro ⟨p, hp, hid⟩ hnone
    exact projectOrder_eq_none_iff.mp hnone p hp hid

theorem validateEach_neg_one_ok {projs : List Project} :
    ∀ ps : List String, validateEach projs (-1) ps = .ok () ↔
      ∀ e ∈ ps, trimSpace e = "" ∨ projectOrder projs (trimSpace e) ≠ none := by
  intro ps
  induction ps with
  | nil => simp [validateEach]
  | cons e rest ih =>
    by_cases hb : trimSpace e = ""
    · have hstep : validateEach projs (-1) (e :: rest) =
          validateEach projs (-1) rest := by
        rw [validateEach, if_pos hb]
      rw [hstep, ih]
      constructor
      · intro h f hf
        rcases List.mem_cons.mp hf with rfl | hf'
        · exact Or.inl hb
        · exact h f hf'
      · intro h f hf
        exact h f (List.mem_cons_of_mem _ hf)
    · cases hpo : projectOrder projs (trimSpace e) with
      | none =>
        have hstep : validateEach projs (-1) (e :: rest) =
            .error (.unknownPrerequisite (trimSpace e)) := by
          rw [validateEach, if_neg hb, hpo]
        rw [hstep]
        constructor
        · intro h
          cases h
        · intro h
          rcases h e (List.mem_cons_self _ _) with h' | h'
          · exact absurd h' hb
          · exact absurd hpo h'
      | some o =>
        have hstep : validateEach projs (-1) (e :: rest) =
            validateEach projs (-1) rest := by
          rw [validateEach, if_neg hb, hpo]
          rfl
        rw [hstep, ih]
        constructor
        · intro h f hf
          rcases List.mem_cons.mp hf with rfl | hf'
          · exact Or.inr (by rw [hpo]; simp)
          · exact h f hf'
        · intro h f hf
          exact h f (List.mem_cons_of_mem _ hf)

theorem validateEach_neg_one_error {projs : List Project} :
    ∀ (ps : List String) (err : ProjErr),
      validateEach projs (-1) ps = .error err →
      ∃ e ∈ ps, trimSpace e ≠ "" ∧ err = .unknownPrerequisite (trimSpace e) ∧
        projectOrder projs (trimSpace e) = none := by
  intro ps
  induction ps with
  | nil => intro err h; cases h
  | cons e rest ih =>
    intro err h
    by_cases hb : trimSpace e = ""
    · rw [show validateEach projs (-1) (e :: rest) =
          validateEach projs (-1) rest by rw [validateEach, if_pos hb]] at h
      obtain ⟨f, hf, hprops⟩ := ih err h
      exact ⟨f, List.mem_cons_of_mem _ hf, hprops⟩
    · cases hpo : projectOrder projs (trimSpace e) with
      | none =>
        rw [show validateEach projs (-1) (e :: rest) =
            .error (.unknownPrerequisite (trimSpace e)) by
          rw [validateEach, if_neg hb, hpo]] at h
        cases h
        exact ⟨e, List.mem_cons_self _ _, hb, rfl, hpo⟩
      | some o =>
        rw [show validateEach projs (-1) (e :: rest) =
            validateEach projs (-1) rest by
          rw [validateEach, if_neg hb, hpo]
          rfl] at h
        obtain ⟨f, hf, hprops⟩ := ih err h
        exact ⟨f, List.mem_cons_of_mem _ hf, hprops⟩

theorem validateEach_cons_blank {projs : List Project} {c : Int} {e : String}
    (rest : List String) (hb : trimSpace e = "") :
    validateEach projs c (e :: rest) = validateEach projs c rest := by
  rw [validateEach, if_pos hb]

theorem validateEach_cons_unknown {projs : List Project} {c : Int}
    {e : String} (rest : List String) (hb : trimSpace e ≠ "")
    (hpo : projectOrder projs (trimSpace e) = none) :
    validateEach projs c (e :: rest) =
      .error (.unknownPrerequisite (trimSpace e)) := by
  rw [validateEach, if_neg hb, hpo]

theorem validateEach_cons_some {projs : List Project} {c : Int} {e : String}
    {o : Int} (rest : List String) (hb : trimSpace e ≠ "")
    (hpo : projectOrder projs (trimSpace e) = some o) :
    validateEach projs c (e :: rest) =
      if c ≠ -1 ∧ o ≥ c then
        .error (.outOfOrderPrerequisite (trimSpace e))
      else validateEach projs c rest := by
  rw [validateEach, if_neg hb, hpo]

theorem validateEach_unknown_shape {projs : List Project} {c : Int} :
    ∀ (ps : List String) (s : String),
      validateEach projs c ps = .error (.unknownPrerequisite s) →
      ∃ e ∈ ps, trimSpace e ≠ "" ∧ s = trimSpace e ∧
        projectOrder projs (trimSpace e) = none := by
  intro ps
  induction ps with
  | nil => intro s h; cases h
  | cons e rest ih =>
    intro s h
    by_cases hb : trimSpace e = ""
    · rw [validateEach_cons_blank rest hb] at h
      obtain ⟨f, hf, hp⟩ := ih s h
      exact ⟨f, List.mem_cons_of_mem _ hf, hp⟩
    · cases hpo : projectOrder projs (trimSpace e) with
      | none =>
        rw [validateEach_cons_unknown rest hb hpo] at h
        simp only [Except.error.injEq, ProjErr.unknownPrerequisite.injEq] at h
        exact ⟨e, List.mem_cons_self _ _, hb, h.symm, hpo⟩
      | some o =>
        rw [validateEach_cons_some rest hb hpo] at h
        split at h
        · simp at h
        · obtain ⟨f, hf, hp⟩ := ih s h
          exact ⟨f, List.mem_cons_of_mem _ hf, hp⟩

theorem validateEach_ne_ok_of_unknown {projs : List Project} {c : Int} :
    ∀ ps : List String,
      (∃ e ∈ ps, trimSpace e ≠ "" ∧
        projectOrder projs (trimSpace e) = none) →
      validateEach projs c ps ≠ .ok () := by
  intro ps
  induction ps with
  | nil =>
    rintro ⟨e, he, -⟩
    simp at he
  | cons e rest ih =>
    rintro ⟨f, hf, hfb, hfnone⟩ hok
    by_cases hb : trimSpace e = ""
    · rw [validateEach_cons_blank rest hb] at hok
      rcases List.mem_cons.mp hf with rfl | hf'
      · exact hfb hb
      · exact ih ⟨f, hf', hfb, hfnone⟩ hok
    · cases hpo : projectOrder projs (trimSpace e) with
      | none =>
        rw [validateEach_cons_unknown rest hb hpo] at hok
        cases hok
      | some o =>
        rw [validateEach_cons_some rest hb hpo] at hok
        split at hok
        · cases hok
        · rcases List.mem_cons.mp hf with rfl | hf'
          · rw [hfnone] at hpo
            simp at hpo
          · exact ih ⟨f, hf', hfb, hfnone⟩ hok

theorem validateEach_singleton_unknown_iff {projs : List Project}
    (c : Int) (e : String) :
    validateEach projs c [e] =
        .error (.unknownPrerequisite (trimSpace e)) ↔
      trimSpace e ≠ "" ∧ ∀ p ∈ projs, p.identifier ≠ trimSpace e := by
  by_cases hb : trimSpace e = ""
  · rw [validateEach_cons_blank [] hb]
    constructor
    · intro h
      cases h
    · rintro ⟨hb', -⟩
      exact absurd hb hb'
  · cases hpo : projectOrder projs (trimSpace e) with
    | none =>
      rw [validateEach_cons_unknown [] hb hpo]
      constructor
      · intro _
        exact ⟨hb, projectOrder_eq_none_iff.mp hpo⟩
      · intro _
        rfl
    | some o =>
      rw [validateEach_cons_some [] hb hpo]
      constructor
      · intro h
        split at h
        · simp at h
        · cases h
      · rintro ⟨-, hnon⟩
        rw [projectOrder_eq_none_iff.mpr hnon] at hpo
        simp at hpo

/-! ## Claim theorems: prerequisite identifier validation -/

/-- C7 counterexample: the claim demands an UnknownPrerequisite failure for
every entry that matches no project identifier, including whitespace-only
entries, but a whitespace-only entry is skipped by the loop: with a single
project R1 the list [" "] validates fine even though no project has
identifier " ". -/
theorem c7_counterexample :
    validatePrerequisites [⟨1, 1, "R1", [], "root", 1⟩] [" "] "" = .ok () ∧
    ∀ p ∈ [(⟨1, 1, "R1", [], "root", 1⟩ : Project)], p.identifier ≠ " " :=
  ⟨rfl, by decide⟩

/-- C7 amended, at creation and at update alike: a non-blank (after
trimming) entry fails the per-entry check with UnknownPrerequisite exactly
when no project in the curriculum has the trimmed identifier, for every
`currentOrder`; every unknown-prerequisite failure of the whole validation
names such an entry; the presence of such an entry makes the validation of
any mode fail; at creation the validation succeeds exactly when every entry
is blank or resolves; and blank (empty or whitespace-only) entries are
skipped — never rejected — in every mode. -/
theorem c7_unknown_prerequisite_check :
    ∀ (projs : List Project) (ps : List String),
      (validatePrerequisites projs ps "" = .ok () ↔
        ∀ e ∈ ps, trimSpace e = "" ∨
          ∃ p ∈ projs, p.identifier = trimSpace e) ∧
      (∀ (cur s : String),
        validatePrerequisites projs ps cur =
            .error (.unknownPrerequisite s) →
        ∃ e ∈ ps, trimSpace e ≠ "" ∧ s = trimSpace e ∧
          ∀ p ∈ projs, p.identifier ≠ trimSpace e) ∧
      (∀ cur : String,
        (∃ e ∈ ps, trimSpace e ≠ "" ∧
          ∀ p ∈ projs, p.identifier ≠ trimSpace e) →
        validatePrerequisites projs ps cur ≠ .ok ()) ∧
      (∀ (c : Int) (e : String),
        validateEach projs c [e] =
            .error (.unknownPrerequisite (trimSpace e)) ↔
          trimSpace e ≠ "" ∧ ∀ p ∈ projs, p.identifier ≠ trimSpace e) ∧
      (∀ (cur : Int) (e : String) (rest : List String), trimSpace e = "" →
        validateEach projs cur (e :: rest) = validateEach projs cur rest) := by
  intro projs ps
  refine ⟨?_, ?_, ?_, fun c e => validateEach_singleton_unknown_iff c e, ?_⟩
  · rw [validatePrerequisites]
    split
    · rename_i h0
      have hnil : ps = [] := List.length_eq_zero.mp h0
      subst hnil
      simp
    · rw [show currentOrderOf projs "" = -1 from rfl, validateEach_neg_one_ok]
      constructor
      · intro h f hf
        rcases h f hf with h' | h'
        · exact Or.inl h'
        · exact Or.inr (projectOrder_ne_none_iff.mp h')
      · intro h f hf
        rcases h f hf with h' | h'
        · exact Or.inl h'
        · exact Or.inr (projectOrder_ne_none_iff.mpr h')
  · intro cur s h
    rw [validatePrerequisites] at h
    split at h
    · cases h
    · obtain ⟨e, he, hb, hs, hnone⟩ := validateEach_unknown_shape ps s h
      exact ⟨e, he, hb, hs, projectOrder_eq_none_iff.mp hnone⟩
  · intro cur hex hok
    rw [validatePrerequisites] at hok
    split at hok
    · rename_i h0
      have hnil : ps = [] := List.length_eq_zero.mp h0
      subst hnil
      obtain ⟨e, he, -⟩ := hex
      simp at he
    · obtain ⟨e, he, hb, hnon⟩ := hex
      exact validateEach_ne_ok_of_unknown ps
        ⟨e, he, hb, projectOrder_eq_none_iff.mpr hnon⟩ hok
  · intro cur e rest hb
    rw [validateEach, if_pos hb]

/-- Witness for C7: a list whose entries either resolve (R1) or are blank
validates at creation; an unresolved entry fails validation in update mode
too; the per-entry unknown check fires for R9 at a non-creation
currentOrder; and a blank head entry is skipped verbatim. -/
theorem c7_unknown_prerequisite_check_witness :
    validatePrerequisites [⟨1, 1, "R1", [], "root", 1⟩] ["R1", "  "] "" =
      .ok () ∧
    validatePrerequisites [⟨1, 1, "R1", [], "root", 1⟩] ["R9"] "R1" ≠
      .ok () ∧
    validateEach [⟨1, 1, "R1", [], "root", 1⟩] 1 ["R9"] =
      .error (.unknownPrerequisite (trimSpace "R9")) ∧
    validateEach [⟨1, 1, "R1", [], "root", 1⟩] (-1) [" ", "R9"] =
      validateEach [⟨1, 1, "R1", [], "root", 1⟩] (-1) ["R9"] :=
  ⟨((c7_unknown_prerequisite_check [⟨1, 1, "R1", [], "root", 1⟩]
        ["R1", "  "]).1).mpr (by decide),
    (c7_unknown_prerequisite_check [⟨1, 1, "R1", [], "root", 1⟩]
        ["R9"]).2.2.1 "R1" (by decide),
    ((c7_unknown_prerequisite_check [⟨1, 1, "R1", [], "root", 1⟩]
        ["R9"]).2.2.2.1 1 "R9").mpr (by decide),
    (c7_unknown_prerequisite_check [⟨1, 1, "R1", [], "root", 1⟩]
        ["R9"]).2.2.2.2 (-1) " " ["R9"] (by decide)⟩

/-! ## Helper lemmas for the weekly time series -/

theorem mem_insertWeek {v w : Int} {l : List Int} :
    v ∈ insertWeek w l ↔ v = w ∨ v ∈ l := by
  induction l with
  | nil => simp [insertWeek]
  | cons x xs ih =>
    rw [insertWeek]
    split
    · simp
    · split
      · rename_i heq
        subst heq
        simp only [List.mem_cons]
        tauto
      · simp only [List.mem_cons, ih]
        tauto

theorem mem_foldl_insertWeek {v : Int} :
    ∀ (l : List Int) (acc : List Int),
      v ∈ l.foldl (fun acc w => insertWeek w acc) acc ↔ v ∈ acc ∨ v ∈ l := by
  intro l
  induction l with
  | nil => simp
  | cons x xs ih =>
    intro acc
    rw [List.foldl_cons, ih, mem_insertWeek]
    simp only [List.mem_cons]
    tauto

theorem mem_weekGroups {now v : Int} {es : List TimeEntry} :
    v ∈ weekGroups now es ↔
      ∃ e ∈ es, inWindow now e = true ∧ weekOf e = v := by
  rw [weekGroups, mem_foldl_insertWeek]
  simp only [List.not_mem_nil, false_or, List.mem_map]
  constructor
  · rintro ⟨e, he, rfl⟩
    obtain ⟨he1, he2⟩ := List.mem_filter.mp he
    exact ⟨e, he1, he2, rfl⟩
  · rintro ⟨e, he1, he2, rfl⟩
    exact ⟨e, List.mem_filter.mpr ⟨he1, he2⟩, rfl⟩

theorem bucketsFoldl_length (now : Int) (es : List TimeEntry) :
    ∀ (ws : List Int) (arr : List Int),
      (ws.foldl (bucketStep now es) arr).length = arr.length := by
  intro ws
  induction ws with
  | nil => intro arr; rfl
  | cons w ws ih =>
    intro arr
    rw [List.foldl_cons, ih, bucketStep]
    split
    · exact List.length_set _ _ _
    · rfl

theorem bucketsFoldl_getD (now : Int) (es : List TimeEntry) {k : Nat}
    {w₀ : Int} (hP : 0 ≤ weeksAgo now w₀ ∧ weeksAgo now w₀ < 8)
    (hidx : (7 - weeksAgo now w₀).toNat = k) :
    ∀ (ws : List Int) (arr : List Int), k < arr.length →
      (∀ w ∈ ws, 0 ≤ weeksAgo now w → weeksAgo now w < 8 →
        (7 - weeksAgo now w).toNat = k → w = w₀) →
      (ws.foldl (bucketStep now es) arr).getD k 0 =
        if w₀ ∈ ws then groupSum now es w₀ else arr.getD k 0 := by
  intro ws
  induction ws with
  | nil =>
    intro arr hk huniq
    simp
  | cons w ws ih =>
    intro arr hk huniq
    have huniq' : ∀ w' ∈ ws, 0 ≤ weeksAgo now w' → weeksAgo now w' < 8 →
        (7 - weeksAgo now w').toNat = k → w' = w₀ :=
      fun w' hw' => huniq w' (List.mem_cons_of_mem _ hw')
    rw [List.foldl_cons]
    by_cases hw : w = w₀
    · subst hw
      have hstep : bucketStep now es arr w = arr.set k (groupSum now es w) := by
        rw [bucketStep, if_pos hP, hidx]
      rw [hstep,
        ih (arr.set k (groupSum now es w))
          (by rw [List.length_set]; exact hk) huniq',
        if_pos (List.mem_cons_self _ _)]
      split
      · rfl
      · rw [List.getD_eq_getElem?_getD, List.getElem?_set_eq_of_lt _ hk]
        rfl
    · have hstep : (bucketStep now es arr w).getD k 0 = arr.getD k 0 := by
        rw [bucketStep]
        split
        · rename_i hcond
          have hne : (7 - weeksAgo now w).toNat ≠ k := by
            intro hEq
            exact hw (huniq w (List.mem_cons_self _ _) hcond.1 hcond.2 hEq)
          rw [List.getD_eq_getElem?_getD, List.getElem?_set_ne hne,
            ← List.getD_eq_getElem?_getD]
        · rfl
      have hk' : k < (bucketStep now es arr w).length := by
        rw [bucketStep]
        split
        · rw [List.length_set]
          exact hk
        · exact hk
      rw [ih (bucketStep now es arr w) hk' huniq', hstep]
      by_cases hmem : w₀ ∈ ws
      · rw [if_pos hmem, if_pos (List.mem_cons_of_mem _ hmem)]
      · rw [if_neg hmem, if_neg]
        intro hmem'
        rcases List.mem_cons.mp hmem' with h' | h'
        · exact hw h'.symm
        · exact hmem h'

theorem truncWeek_eq_mul (t : Int) :
    truncWeek t = weekLen * (t / weekLen) := by
  rw [truncWeek]
  have := Int.ediv_add_emod t weekLen
  omega

theorem weeksAgo_truncWeek_sub (now : Int) {j : Int} (hj : 0 ≤ j) :
    weeksAgo now (truncWeek now - j * weekLen) = j := by
  have hr0 : 0 ≤ now % weekLen := Int.emod_nonneg now (by decide)
  have hrW : now % weekLen < weekLen := Int.emod_lt_of_pos now (by decide)
  have hdiff : now - (truncWeek now - j * weekLen) =
      now % weekLen + j * weekLen := by
    rw [truncWeek]
    ring
  have hnn : 0 ≤ now % weekLen + j * weekLen := by
    have := mul_nonneg hj (show (0 : Int) ≤ weekLen by decide)
    omega
  rw [weeksAgo, hdiff, Int.tdiv_eq_ediv hnn (by decide),
    Int.add_mul_ediv_right _ _ (by decide),
    Int.ediv_eq_zero_of_lt hr0 hrW, zero_add]

theorem weekGroup_decompose {now w : Int} (hw : ∃ t : Int, w = truncWeek t)
    (hle : w ≤ truncWeek now) :
    ∃ j : Int, 0 ≤ j ∧ w = truncWeek now - j * weekLen := by
  obtain ⟨t, rfl⟩ := hw
  rw [truncWeek_eq_mul, truncWeek_eq_mul] at hle
  refine ⟨now / weekLen - t / weekLen, ?_, ?_⟩
  · have hWpos : (0 : Int) < weekLen := by decide
    have := le_of_mul_le_mul_left hle hWpos
    omega
  · rw [truncWeek_eq_mul, truncWeek_eq_mul]
    ring

theorem inWindow_of_weekOf {now : Int} {e : TimeEntry} {j : Int}
    (_hj0 : 0 ≤ j) (hj7 : j ≤ 7)
    (hw : weekOf e = truncWeek now - j * weekLen) :
    inWindow now e = true := by
  rw [inWindow, decide_eq_true_eq]
  have h1 : weekOf e ≤ e.loggedAt := by
    rw [weekOf, truncWeek]
    have := Int.emod_nonneg e.loggedAt (show weekLen ≠ 0 by decide)
    omega
  have hr : now % weekLen < weekLen := Int.emod_lt_of_pos now (by decide)
  have hmul : j * weekLen ≤ 7 * weekLen :=
    mul_le_mul_of_nonneg_right hj7 (show (0 : Int) ≤ weekLen by decide)
  rw [truncWeek] at hw
  linarith [hw, h1, hr, hmul]

/-! ## Claim theorems: weekly time series -/

/-- C9 counterexample: the claim says each of the eight buckets equals the
minutes logged in its calendar week, but a time entry dated in a future
calendar week passes the window filter, gets `weeksAgo = 0` under Go's
truncation toward zero, and overwrites the newest bucket: with 30 minutes
logged this week and a 45-minute entry dated next week, bucket 7 reads 45
while this week's logged minutes are 30. -/
theorem c9_counterexample :
    (weeklyTimeSpent 10085000 [⟨10084900, 30⟩, ⟨10090130, 45⟩]).getD 7 0 ≠
      weekMinutes [⟨10084900, 30⟩, ⟨10090130, 45⟩] (truncWeek 10085000) ∧
    (weeklyTimeSpent 10085000 [⟨10084900, 30⟩, ⟨10090130, 45⟩]).getD 7 0 =
      45 ∧
    weekMinutes [⟨10084900, 30⟩, ⟨10090130, 45⟩] (truncWeek 10085000) = 30 ∧
    truncWeek 10090130 = truncWeek 10085000 + weekLen :=
  ⟨by decide, by decide, by decide, by decide⟩

/-- C9 amended: the weekly series always has exactly 8 entries, ordered
oldest-to-newest (bucket k holds the calendar week 7-k weeks back), a week
with no entries contributes 0, and — provided no time entry is dated in a
calendar week after the current one — bucket k equals the minutes logged in
its calendar week. -/
theorem c9_weekly_time_series :
    ∀ (now : Int) (es : List TimeEntry),
      (weeklyTimeSpent now es).length = 8 ∧
      ((∀ e ∈ es, truncWeek e.loggedAt ≤ truncWeek now) →
        ∀ k : Nat, k < 8 →
          (weeklyTimeSpent now es).getD k 0 =
            weekMinutes es (truncWeek now - (7 - (k : Int)) * weekLen)) := by
  intro now es
  constructor
  · exact (bucketsFoldl_length now es _ _).trans rfl
  · intro hnf k hk
    set j : Int := 7 - (k : Int) with hjdef
    set w₀ : Int := truncWeek now - j * weekLen with hw₀def
    have hj0 : 0 ≤ j := by omega
    have hj7 : j ≤ 7 := by omega
    have hwa : weeksAgo now w₀ = j := weeksAgo_truncWeek_sub now hj0
    have hP : 0 ≤ weeksAgo now w₀ ∧ weeksAgo now w₀ < 8 := by
      rw [hwa]
      exact ⟨hj0, by omega⟩
    have hidx : (7 - weeksAgo now w₀).toNat = k := by
      rw [hwa]
      omega
    have huniq : ∀ w ∈ weekGroups now es, 0 ≤ weeksAgo now w →
        weeksAgo now w < 8 → (7 - weeksAgo now w).toNat = k → w = w₀ := by
      intro w hwmem h0 h8 hik
      obtain ⟨e, he, hwin, hweq⟩ := mem_weekGroups.mp hwmem
      have hle : w ≤ truncWeek now := by
        rw [← hweq]
        exact hnf e he
      obtain ⟨j', hj'0, hj'eq⟩ :=
        weekGroup_decompose ⟨e.loggedAt, by rw [← hweq]; rfl⟩ hle
      have hwa' : weeksAgo now w = j' := by
        rw [hj'eq]
        exact weeksAgo_truncWeek_sub now hj'0
      rw [hwa'] at h0 h8 hik
      have hj'j : j' = j := by omega
      rw [hj'eq, hj'j]
    have hrep : k < (List.replicate 8 (0 : Int)).length := by
      simpa using hk
    have hgoal := bucketsFoldl_getD now es hP hidx (weekGroups now es)
      (List.replicate 8 0) hrep huniq
    rw [weeklyTimeSpent, hgoal]
    by_cases hmem : w₀ ∈ weekGroups now es
    · rw [if_pos hmem, groupSum, weekMinutes]
      have hfe : es.filter (fun e => inWindow now e && weekOf e == w₀) =
          es.filter (fun e => weekOf e == w₀) := by
        apply List.filter_congr
        intro e he
        by_cases hwk : weekOf e = w₀
        · have hwin : inWindow now e = true :=
            inWindow_of_weekOf hj0 hj7 (by rw [hwk])
          simp [hwin, hwk]
        · simp [hwk]
      rw [hfe]
    · rw [if_neg hmem]
      have hfil : es.filter (fun e => weekOf e == w₀) = [] := by
        rw [List.filter_eq_nil_iff]
        intro e he hbe
        have hwk : weekOf e = w₀ := by simpa using hbe
        have hwin : inWindow now e = true :=
          inWindow_of_weekOf hj0 hj7 (by rw [hwk])
        exact hmem (mem_weekGroups.mpr ⟨e, he, hwin, hwk⟩)
      rw [weekMinutes, hfil]
      simp only [List.getD_eq_getElem?_getD, List.getElem?_replicate, hk,
        if_true, List.map_nil, List.sum_nil]
      rfl

/-- Witness for C9: on a log with a single entry this week and no
future-dated entries, the series has 8 buckets and the newest bucket equals
this week's logged minutes. -/
theorem c9_weekly_time_series_witness :
    (weeklyTimeSpent 10085000 [⟨10084900, 30⟩]).length = 8 ∧
    (weeklyTimeSpent 10085000 [⟨10084900, 30⟩]).getD 7 0 =
      weekMinutes [⟨10084900, 30⟩]
        (truncWeek 10085000 - (7 - ((7 : Nat) : Int)) * weekLen) :=
  ⟨(c9_weekly_time_series 10085000 [⟨10084900, 30⟩]).1,
    (c9_weekly_time_series 10085000 [⟨10084900, 30⟩]).2 (by decide) 7
      (by decide)⟩

end CurriculumTracker
